import Mathlib

/-
Verification of the json-rpc2-implementer library (src/index.ts) against its
natural-language specification.

The embedding models JavaScript runtime values shallowly: a JSValue is either
undefined, null, a boolean, a number (modelled as an exact rational, standing
in for the IEEE double of the runtime; every value the claims exercise is a
small integer, where the two agree), a string, an array, a plain object
(association list of fields; later writes overwrite earlier ones, as in JS),
or an Error instance.  Error instances carry an isRpc flag modelling the
`instanceof JsonRpcError` test, and dynamic code / message / data fields.

Exceptions are modelled with Except: a thrown JavaScript value is carried in
the error branch.  Property access on null or undefined throws a TypeError,
as in the runtime; on every other value it is total.
-/

inductive JSValue where
  | undefined : JSValue
  | null : JSValue
  | bool : Bool → JSValue
  | num : Rat → JSValue
  | str : String → JSValue
  | arr : List JSValue → JSValue
  | obj : List (String × JSValue) → JSValue
  | errObj : Bool → JSValue → JSValue → JSValue → JSValue

/-- JavaScript truthiness of a value (ToBoolean). -/
def JSValue.truthy : JSValue → Bool
  | .undefined => false
  | .null => false
  | .bool b => b
  | .num q => decide (q ≠ 0)
  | .str s => decide (s ≠ "")
  | .arr _ => true
  | .obj _ => true
  | .errObj _ _ _ _ => true

/-- Lookup of a field in an object's association list (first match; the
parser and all writers keep keys unique, later writes overwriting). -/
def lookupField : List (String × JSValue) → String → Option JSValue
  | [], _ => none
  | (k2, v) :: fs, k => if k2 = k then some v else lookupField fs k

/-- Write a field into an object's association list: overwrite an existing
key in place, otherwise append, as JS property assignment does. -/
def setField : List (String × JSValue) → String → JSValue → List (String × JSValue)
  | [], k, v => [(k, v)]
  | (k2, v2) :: fs, k, v =>
      if k2 = k then (k2, v) :: fs else (k2, v2) :: setField fs k v

mutual

/-- JavaScript String(v) conversion.  Number printing is exact for integers
(the only numbers the claims exercise); other rationals use the Lean
rendering as a stand-in for double formatting. -/
def jsToString : JSValue → String
  | .undefined => "undefined"
  | .null => "null"
  | .bool true => "true"
  | .bool false => "false"
  | .num q => if q.den = 1 then toString q.num else toString q
  | .str s => s
  | .arr xs => jsListToString xs
  | .obj _ => "[object Object]"
  | .errObj isRpc _ m _ =>
      let n := if isRpc then "JsonRpcError" else "Error"
      match m with
      | .str s => if s = "" then n else n ++ ": " ++ s
      | mv => n ++ ": " ++ jsToString mv

/-- Array.prototype.join with "," : null and undefined elements render
empty, the rest via String(). -/
def jsListToString : List JSValue → String
  | [] => ""
  | [x] =>
      match x with
      | .null => ""
      | .undefined => ""
      | v => jsToString v
  | x :: xs =>
      (match x with
       | .null => ""
       | .undefined => ""
       | v => jsToString v) ++ "," ++ jsListToString xs

end

/-- A TypeError thrown value, as produced by property access on null or
undefined. -/
def typeError (m : String) : JSValue :=
  .errObj false .undefined (.str m) .undefined

/-- Property access `v[k]`, for the fields the library reads.  Throws a
TypeError on null and undefined; yields undefined for absent fields and on
primitives; reads code / message / data off Error instances. -/
def JSValue.getFieldE : JSValue → String → Except JSValue JSValue
  | .undefined, _ => .error (typeError "Cannot read properties of undefined")
  | .null, _ => .error (typeError "Cannot read properties of null")
  | .obj fs, k =>
      .ok (match lookupField fs k with
           | some v => v
           | none => .undefined)
  | .errObj _ c m d, k =>
      .ok (if k = "code" then c else if k = "message" then m
           else if k = "data" then d else .undefined)
  | _, _ => .ok .undefined

/-- Source constant ServerErrorSince (src/index.ts line 589). -/
def ServerErrorSince : Rat := -32000

/-- Source constant ServerErrorUntil (src/index.ts line 591). -/
def ServerErrorUntil : Rat := -32099

/-- makeDefaultErrorMessage from src/index.ts: the switch over the fixed
standard codes, then the (as written) range check against ServerErrorSince
and ServerErrorUntil, else "Unknown Error". -/
def makeDefaultErrorMessage (code : Rat) : String :=
  if code = -32700 then "Parse error"
  else if code = -32600 then "Invalid Request"
  else if code = -32601 then "Method not found"
  else if code = -32602 then "Invalid params"
  else if code = -32603 then "Internal error"
  else if ServerErrorSince ≤ code ∧ code ≤ ServerErrorUntil then "Server error"
  else "Unknown Error"

/-- The spec's intended reserved server-error band, [-32099, -32000]
inclusive (spec section 3), stated for comparison with the code. -/
def inServerErrorBandSpec (code : Rat) : Prop :=
  -32099 ≤ code ∧ code ≤ -32000

/-- Default message selection for a dynamic code value: the switch in
makeDefaultErrorMessage compares against number literals, so a non-number
code matches no case and no range bound that the claims exercise. -/
def defaultMessageFor : JSValue → String
  | .num q => makeDefaultErrorMessage q
  | _ => "Unknown Error"

/-- The JsonRpcError constructor, `new JsonRpcError(code, message, data)`,
over runtime values: the code parameter defaults to InternalError (-32603)
exactly when the argument is undefined; the Error superclass stores
String(message || makeDefaultErrorMessage(code)); data is stored as given. -/
def mkJsonRpcError (c m d : JSValue) : JSValue :=
  let code := match c with
    | .undefined => JSValue.num (-32603)
    | v => v
  let msgArg := if m.truthy then m else .str (defaultMessageFor code)
  .errObj true code (.str (jsToString msgArg)) d

/-- JsonRpcError.convert from src/index.ts: identity on JsonRpcError
instances; for other Error instances, start from `new JsonRpcError()` and
copy each of code / message / data when truthy; for non-Error values,
stringify into the message. -/
def JsonRpcError.convert (e : JSValue) : JSValue :=
  match e with
  | .errObj true c m d => .errObj true c m d
  | .errObj false c m d =>
      .errObj true
        (if c.truthy then c else .num (-32603))
        (if m.truthy then m else .str "Internal error")
        (if d.truthy then d else .undefined)
  | v => .errObj true (.num (-32603)) (.str (jsToString v)) .undefined

/-- A JSON-RPC2 response object as built by createResponse: jsonrpc tag,
normalized id, and at most one of the result / error keys (none models an
absent key). -/
structure JsonRpc2Response where
  jsonrpc : String
  id : JSValue
  result : Option JSValue
  error : Option JSValue

/-- The code field of a response's error object, when the response has one. -/
def respErrCode (r : JsonRpc2Response) : Option JSValue :=
  match r.error with
  | some (.errObj _ c _ _) => some c
  | _ => none

/-- The message field of a response's error object, when the response has
one. -/
def respErrMessage (r : JsonRpc2Response) : Option JSValue :=
  match r.error with
  | some (.errObj _ _ m _) => some m
  | _ => none

/-- The id-normalization block at the head of createResponse: undefined and
null become the null literal, numbers are kept, anything else becomes
String(id). -/
def normalizeId : JSValue → JSValue
  | .undefined => JSValue.null
  | .null => JSValue.null
  | .num q => JSValue.num q
  | v => JSValue.str (jsToString v)

/-- createResponse from src/index.ts: normalize the id (undefined or null
to the null literal, any non-number to String(id)); on a truthy error,
convert it unless it is already a JsonRpcError instance and set only the
error key; otherwise set only the result key to `result || null`. -/
def createResponse (id result error : JSValue) : JsonRpc2Response :=
  if error.truthy then
    let e :=
      match error with
      | .errObj true c m d => JSValue.errObj true c m d
      | v => JsonRpcError.convert v
    ⟨"2.0", normalizeId id, none, some e⟩
  else
    ⟨"2.0", normalizeId id, some (if result.truthy then result else .null), none⟩

/-- SameValueZero, the key equality of a JS Map.  Primitives compare by
value; objects, arrays and error instances compare by reference, and every
comparison the library performs is between a freshly parsed value and a
previously stored key, so distinct references: modelled as never equal. -/
def sameValueZero : JSValue → JSValue → Bool
  | .undefined, .undefined => true
  | .null, .null => true
  | .bool a, .bool b => a == b
  | .num a, .num b => decide (a = b)
  | .str a, .str b => a == b
  | _, _ => false

/-- The correlation table `callbackMap`, as an association list from an id
key to a token naming the pending call's promise.  Keys are unique (Map
semantics); `settled` records, per token, the first settlement of that
promise, mirroring that a JS promise settles at most once. -/
inductive SettleOut where
  | resolve : JSValue → SettleOut
  | reject : JSValue → SettleOut

structure EngineSt where
  callbackMap : List (JSValue × Nat)
  settled : List (Nat × SettleOut)

/-- Map.get on the correlation table. -/
def mapLookup : List (JSValue × Nat) → JSValue → Option Nat
  | [], _ => none
  | (k2, t) :: m, k => if sameValueZero k2 k then some t else mapLookup m k

/-- Map.delete on the correlation table (keys are unique, so removing every
match equals removing the one entry). -/
def mapErase : List (JSValue × Nat) → JSValue → List (JSValue × Nat)
  | [], _ => []
  | (k2, t) :: m, k =>
      if sameValueZero k2 k then mapErase m k else (k2, t) :: mapErase m k

/-- Map.set on the correlation table: overwrite any existing entry for the
key. -/
def mapSet (m : List (JSValue × Nat)) (k : JSValue) (t : Nat) : List (JSValue × Nat) :=
  (k, t) :: mapErase m k

/-- Settle a promise token: record the outcome unless the token has already
settled (a JS promise's first resolution wins; later calls are no-ops). -/
def settleTok (st : EngineSt) (tok : Nat) (out : SettleOut) : EngineSt :=
  if (st.settled.lookup tok).isSome then st
  else ⟨st.callbackMap, (tok, out) :: st.settled⟩

/-- How many settlements are recorded for a token. -/
def settleCount (st : EngineSt) (tok : Nat) : Nat :=
  (st.settled.map Prod.fst).count tok

/-- doCallback from src/index.ts: read response.id, look it up in the
callback map; absent means return with no effect; otherwise delete the
entry, then reject with a reconstructed JsonRpcError when response.error is
truthy, else resolve with response.result. -/
def doCallback (st : EngineSt) (resp : JSValue) : Except JSValue EngineSt :=
  match resp.getFieldE "id" with
  | .error e => .error e
  | .ok id =>
      match mapLookup st.callbackMap id with
      | none => .ok st
      | some tok =>
          let st1 : EngineSt := ⟨mapErase st.callbackMap id, st.settled⟩
          match resp.getFieldE "error" with
          | .error e => .error e
          | .ok err =>
              if err.truthy then
                match err.getFieldE "code", err.getFieldE "message", err.getFieldE "data" with
                | .ok c, .ok m, .ok d =>
                    .ok (settleTok st1 tok (.reject (mkJsonRpcError c m d)))
                | .error e, _, _ => .error e
                | _, .error e, _ => .error e
                | _, _, .error e => .error e
              else
                match resp.getFieldE "result" with
                | .error e => .error e
                | .ok r => .ok (settleTok st1 tok (.resolve r))

/-- isResponse from src/index.ts: `json.result !== undefined ||
json.error !== undefined`, with the short-circuit order of the source (the
second access happens only when the first is undefined). -/
def isResponseE (json : JSValue) : Except JSValue Bool :=
  match json.getFieldE "result" with
  | .error e => .error e
  | .ok r =>
      match r with
      | .undefined =>
          (match json.getFieldE "error" with
           | .error e => .error e
           | .ok e =>
               match e with
               | .undefined => .ok false
               | _ => .ok true)
      | _ => .ok true

/-- Outcome of one method-handler invocation: a returned value, the
NoResponse sentinel, or a thrown / rejected value. -/
inductive HandlerOutcome where
  | ret : JSValue → HandlerOutcome
  | noResponse : HandlerOutcome
  | raise : JSValue → HandlerOutcome

/-- The integrator-supplied methodHandler, as a function of (method, params,
id). -/
def MethodHandler := JSValue → JSValue → JSValue → HandlerOutcome

/-- The try block of doMethod: throw MethodNotFound when no handler is
registered; otherwise invoke the handler on request.method, request.params,
request.id (property reads that throw on a null request); return a success
response only when the result is not the NoResponse sentinel and the id is
neither undefined nor null, else null (modelled as none). -/
def doMethodBody (h : Option MethodHandler) (req : JSValue) :
    Except JSValue (Option JsonRpc2Response) :=
  match h with
  | none => .error (mkJsonRpcError (.num (-32601)) .undefined .undefined)
  | some handler =>
      match req.getFieldE "method", req.getFieldE "params", req.getFieldE "id" with
      | .ok m, .ok p, .ok i =>
          (match handler m p i with
           | .raise e => .error e
           | .noResponse => .ok none
           | .ret v =>
               match i with
               | .undefined => .ok none
               | .null => .ok none
               | _ => .ok (some (createResponse i v .undefined)))
      | .error e, _, _ => .error e
      | _, .error e, _ => .error e
      | _, _, .error e => .error e

/-- doMethod from src/index.ts: the try body above, with the catch clause
building `createResponse(request.id, null, e)` — the catch itself reads
request.id again, so a null request propagates the TypeError. -/
def doMethod (h : Option MethodHandler) (req : JSValue) :
    Except JSValue (Option JsonRpc2Response) :=
  match doMethodBody h req with
  | .ok r => .ok r
  | .error e =>
      match req.getFieldE "id" with
      | .error te => .error te
      | .ok i => .ok (some (createResponse i .null e))

/-- What doMetodOrCallback hands back to receive: nothing (undefined or
null), a single response, or a non-empty batch of responses. -/
inductive DispatchOut where
  | nothing : DispatchOut
  | single : JsonRpc2Response → DispatchOut
  | batch : List JsonRpc2Response → DispatchOut

/-- The batch loop of doMetodOrCallback: elements in array order; each is
classified by isResponse; response-shaped elements go through doCallback
and contribute nothing; the rest go through doMethod, whose non-null
responses are appended in order.  A thrown classification or dispatch
aborts the loop, keeping the state mutations already made. -/
def goBatch (h : Option MethodHandler) :
    List JSValue → EngineSt → List JsonRpc2Response →
    EngineSt × Except JSValue (List JsonRpc2Response)
  | [], st, acc => (st, .ok acc)
  | j :: rest, st, acc =>
      match isResponseE j with
      | .error e => (st, .error e)
      | .ok true =>
          match doCallback st j with
          | .error e => (st, .error e)
          | .ok st2 => goBatch h rest st2 acc
      | .ok false =>
          match doMethod h j with
          | .error e => (st, .error e)
          | .ok none => goBatch h rest st acc
          | .ok (some r) => goBatch h rest st (acc ++ [r])

/-- doMetodOrCallback from src/index.ts: a non-array is classified once and
routed to doCallback (returning undefined) or doMethod (returning its
response or null); an array runs the batch loop and returns the collected
responses only when non-empty. -/
def doMetodOrCallback (h : Option MethodHandler) (st : EngineSt) (json : JSValue) :
    EngineSt × Except JSValue DispatchOut :=
  match json with
  | .arr elems =>
      match goBatch h elems st [] with
      | (st2, .error e) => (st2, .error e)
      | (st2, .ok rs) =>
          (st2, .ok (if rs.isEmpty then .nothing else .batch rs))
  | j =>
      match isResponseE j with
      | .error e => (st, .error e)
      | .ok true =>
          match doCallback st j with
          | .error e => (st, .error e)
          | .ok st2 => (st2, .ok .nothing)
      | .ok false =>
          match doMethod h j with
          | .error e => (st, .error e)
          | .ok none => (st, .ok .nothing)
          | .ok (some r) => (st, .ok (.single r))

/-- The rational n / 1, built without normalization so that parsed integer
numbers reduce definitionally. -/
def ratOfInt (n : Int) : Rat :=
  ⟨n, 1, Nat.one_ne_zero, Nat.coprime_one_right _⟩

/-- Ten to a natural power, by plain structural arithmetic. -/
def pow10 : Nat → Nat
  | 0 => 1
  | k + 1 => 10 * pow10 k

/-- Whitespace as accepted by JSON. -/
def isJsonWs (c : Char) : Bool :=
  c = ' ' || c = '\t' || c = '\n' || c = '\r'

/-- Skip leading JSON whitespace. -/
def skipWs : List Char → List Char
  | [] => []
  | c :: cs => if isJsonWs c then skipWs cs else c :: cs

/-- Value of a hexadecimal digit. -/
def hexVal (c : Char) : Option Nat :=
  if '0' ≤ c ∧ c ≤ '9' then some (c.toNat - 48)
  else if 'a' ≤ c ∧ c ≤ 'f' then some (c.toNat - 87)
  else if 'A' ≤ c ∧ c ≤ 'F' then some (c.toNat - 55)
  else none

/-- Parse the characters of a JSON string after the opening quote, handling
escapes; yields the content and the remainder after the closing quote.
Unescaped control characters and bad escapes are rejected, as JSON.parse
rejects them. -/
def pStringChars : List Char → Option (List Char × List Char)
  | [] => none
  | c :: cs =>
      if c = '"' then some ([], cs)
      else if c = '\\' then
        match cs with
        | [] => none
        | e :: cs2 =>
            if e = 'u' then
              match cs2 with
              | a :: b :: c3 :: d :: cs3 =>
                  match hexVal a, hexVal b, hexVal c3, hexVal d with
                  | some x1, some x2, some x3, some x4 =>
                      (pStringChars cs3).map
                        (fun pr => (Char.ofNat (((x1 * 16 + x2) * 16 + x3) * 16 + x4) :: pr.1, pr.2))
                  | _, _, _, _ => none
              | _ => none
            else
              let ec : Option Char :=
                if e = '"' then some '"'
                else if e = '\\' then some '\\'
                else if e = '/' then some '/'
                else if e = 'b' then some (Char.ofNat 8)
                else if e = 'f' then some (Char.ofNat 12)
                else if e = 'n' then some '\n'
                else if e = 'r' then some '\r'
                else if e = 't' then some '\t'
                else none
              match ec with
              | none => none
              | some ch => (pStringChars cs2).map (fun pr => (ch :: pr.1, pr.2))
      else if c.toNat < 32 then none
      else (pStringChars cs).map (fun pr => (c :: pr.1, pr.2))

/-- Accumulate the numeric value of a digit run. -/
def digitsToNat : List Char → Nat → Nat
  | [], acc => acc
  | c :: cs, acc => digitsToNat cs (acc * 10 + (c.toNat - 48))

/-- Split a leading run of decimal digits off the input. -/
def takeDigits : List Char → List Char × List Char
  | [] => ([], [])
  | c :: cs =>
      if c.isDigit then
        let pr := takeDigits cs
        (c :: pr.1, pr.2)
      else ([], c :: cs)

/-- Parse a JSON number per the JSON grammar (optional minus, integer part
without leading zeros, optional fraction, optional exponent), as an exact
rational. -/
def pNumber (cs : List Char) : Option (Rat × List Char) :=
  let sg : Bool × List Char :=
    match cs with
    | '-' :: r => (true, r)
    | _ => (false, cs)
  let neg := sg.1
  let ip := takeDigits sg.2
  let ints := ip.1
  if ints = [] then none
  else if 1 < ints.length ∧ ints.head? = some '0' then none
  else
    let fracStep : Option (List Char × List Char) :=
      match ip.2 with
      | '.' :: r =>
          let fp := takeDigits r
          if fp.1 = [] then none else some fp
      | _ => some ([], ip.2)
    match fracStep with
    | none => none
    | some (frac, cs3) =>
        let expStep : Option (Bool × List Char × List Char) :=
          match cs3 with
          | c :: r =>
              if c = 'e' ∨ c = 'E' then
                let es : Bool × List Char :=
                  match r with
                  | '+' :: rr => (false, rr)
                  | '-' :: rr => (true, rr)
                  | _ => (false, r)
                let ep := takeDigits es.2
                if ep.1 = [] then none else some (es.1, ep.1, ep.2)
              else some (false, [], c :: r)
          | [] => some (false, [], [])
        match expStep with
        | none => none
        | some (eneg, eds, cs4) =>
            let mag : Int := (digitsToNat (ints ++ frac) 0 : Int)
            let mant : Int := if neg then -mag else mag
            let e10 : Int :=
              (if eneg then -(digitsToNat eds 0 : Int) else (digitsToNat eds 0 : Int))
                - (frac.length : Int)
            let q : Rat :=
              if 0 ≤ e10 then ratOfInt (mant * (pow10 e10.toNat : Int))
              else mkRat mant (pow10 (-e10).toNat)
            some (q, cs4)

mutual

/-- Fueled recursive-descent parser for a JSON value; fuel bounds the
nesting of productions and is chosen generously from the input length. -/
def pVal : Nat → List Char → Option (JSValue × List Char)
  | 0, _ => none
  | Nat.succ fuel, cs =>
      match skipWs cs with
      | 'n' :: 'u' :: 'l' :: 'l' :: rest => some (.null, rest)
      | 't' :: 'r' :: 'u' :: 'e' :: rest => some (.bool true, rest)
      | 'f' :: 'a' :: 'l' :: 's' :: 'e' :: rest => some (.bool false, rest)
      | '"' :: rest => (pStringChars rest).map (fun pr => (.str (String.mk pr.1), pr.2))
      | '[' :: rest =>
          (match skipWs rest with
           | ']' :: rest2 => some (.arr [], rest2)
           | other => pArrItems fuel other [])
      | '\x7b' :: rest =>
          (match skipWs rest with
           | '\x7d' :: rest2 => some (.obj [], rest2)
           | other => pObjItems fuel other [])
      | other => (pNumber other).map (fun pr => (.num pr.1, pr.2))

/-- Items of a JSON array after the opening bracket (non-empty case). -/
def pArrItems : Nat → List Char → List JSValue → Option (JSValue × List Char)
  | 0, _, _ => none
  | Nat.succ fuel, cs, acc =>
      match pVal fuel cs with
      | none => none
      | some (v, rest) =>
          match skipWs rest with
          | ',' :: rest2 => pArrItems fuel rest2 (acc ++ [v])
          | ']' :: rest2 => some (.arr (acc ++ [v]), rest2)
          | _ => none

/-- Members of a JSON object after the opening brace (non-empty case);
duplicate keys overwrite, as in JSON.parse. -/
def pObjItems : Nat → List Char → List (String × JSValue) → Option (JSValue × List Char)
  | 0, _, _ => none
  | Nat.succ fuel, cs, acc =>
      match skipWs cs with
      | '"' :: rest =>
          (match pStringChars rest with
           | none => none
           | some (kcs, rest2) =>
               match skipWs rest2 with
               | ':' :: rest3 =>
                   (match pVal fuel rest3 with
                    | none => none
                    | some (v, rest4) =>
                        let acc2 := setField acc (String.mk kcs) v
                        match skipWs rest4 with
                        | ',' :: rest5 => pObjItems fuel rest5 acc2
                        | '\x7d' :: rest5 => some (.obj acc2, rest5)
                        | _ => none)
               | _ => none)
      | _ => none

end

/-- JSON.parse: parse one value and require only whitespace to follow. -/
def jsonParse (s : String) : Option JSValue :=
  match pVal (2 * s.length + 2) s.toList with
  | some (v, rest) => if skipWs rest = [] then some v else none
  | none => none

/-- The `json instanceof Object` test of parse: true exactly for arrays,
plain objects and error instances; false for null and all primitives. -/
def instanceofObject : JSValue → Bool
  | .arr _ => true
  | .obj _ => true
  | .errObj _ _ _ _ => true
  | _ => false

/-- parse from src/index.ts: JSON.parse the text or throw
JsonRpcError(ParseError); throw JsonRpcError(InvalidRequest) when the
decoded value is not an Object or is an empty array; otherwise return the
decoded value unchanged. -/
def parse (message : String) : Except JSValue JSValue :=
  match jsonParse message with
  | none => .error (mkJsonRpcError (.num (-32700)) .undefined .undefined)
  | some json =>
      if ! instanceofObject json then
        .error (mkJsonRpcError (.num (-32600)) .undefined .undefined)
      else
        match json with
        | .arr [] => .error (mkJsonRpcError (.num (-32600)) .undefined .undefined)
        | _ => .ok json

/-- One invocation of the integrator's sender during receive: the single
response or the batch array it serializes. -/
inductive SentMessage where
  | one : JsonRpc2Response → SentMessage
  | many : List JsonRpc2Response → SentMessage

/-- receive from src/index.ts: parse and dispatch inside a try whose catch
builds `createResponse(null, null, e)`; send the outcome through sender
exactly when it is truthy (a single response or a non-empty batch; null and
undefined send nothing).  The returned list holds the sender invocations. -/
def receive (h : Option MethodHandler) (st : EngineSt) (message : String) :
    EngineSt × List SentMessage :=
  match parse message with
  | .error e => (st, [.one (createResponse .null .null e)])
  | .ok json =>
      match doMetodOrCallback h st json with
      | (st2, .error e) => (st2, [.one (createResponse .null .null e)])
      | (st2, .ok .nothing) => (st2, [])
      | (st2, .ok (.single r)) => (st2, [.one r])
      | (st2, .ok (.batch rs)) => (st2, [.many rs])

/-- A value on which property access is defined, i.e. neither null nor
undefined. -/
def propSafe : JSValue → Bool
  | .null => false
  | .undefined => false
  | _ => true

/-- Total property read, agreeing with getFieldE on every propSafe value. -/
def getF (j : JSValue) (k : String) : JSValue :=
  match j.getFieldE k with
  | .ok v => v
  | .error _ => .undefined

/-- The classification isResponse as a total boolean on propSafe values:
a defined result field or a defined error field. -/
def isResponseB (j : JSValue) : Bool :=
  match getF j "result" with
  | .undefined =>
      (match getF j "error" with
       | .undefined => false
       | _ => true)
  | _ => true

/-- The response doMethod yields on a propSafe request (doMethod throws
only through property access on null / undefined requests). -/
def pureResp (h : Option MethodHandler) (j : JSValue) : Option JsonRpc2Response :=
  match doMethod h j with
  | .ok r => r
  | .error _ => none

/-- Specification view of the batch loop's output: the non-null doMethod
responses of the non-response-shaped elements, in array order;
response-shaped elements contribute nothing. -/
def batchResponses (h : Option MethodHandler) (elems : List JSValue) :
    List JsonRpc2Response :=
  elems.filterMap (fun j => if isResponseB j then none else pureResp h j)

/-- One correlation step as receive observes it: doCallback's resulting
state, or the unchanged state when doCallback throws (it throws only
before any mutation). -/
def stepCorrelate (st : EngineSt) (j : JSValue) : EngineSt :=
  match doCallback st j with
  | .ok st2 => st2
  | .error _ => st

/-- Specification view of the batch loop's state effect: fold doCallback
over the response-shaped elements in array order; request dispatch never
touches the correlation table. -/
def batchState (st : EngineSt) (elems : List JSValue) : EngineSt :=
  elems.foldl (fun s j => if isResponseB j then stepCorrelate s j else s) st

/-- Wrap a collected response list the way doMetodOrCallback returns it:
nothing when empty, the batch otherwise. -/
def outOfList (rs : List JsonRpc2Response) : DispatchOut :=
  if rs.isEmpty then .nothing else .batch rs

/-- Events acting on the correlation table, with the effect each has in
src/index.ts.  register is call's `callbackMap.set(req.id, cb)` for a call
whose promise is named by a token; inboundResponse is receive routing a
response-shaped message to doCallback; timeoutFire is the timeout closure
of the call with the given id and token (it first checks
`callbackMap.has(req.id)`); senderFail is removeIdAndReject, run when the
sender throws synchronously or its promise rejects (it deletes the id
unconditionally and rejects the promise, a no-op if already settled). -/
inductive CallEv where
  | register : JSValue → Nat → CallEv
  | inboundResponse : JSValue → CallEv
  | timeoutFire : JSValue → Nat → CallEv
  | senderFail : JSValue → Nat → JSValue → CallEv

/-- The TimeoutError value built by the timeout closure (its message embeds
the serialized request, which no claim inspects). -/
def timeoutErrorV : JSValue :=
  .errObj false .undefined (.str "RPC response timeouted.") .undefined

/-- One event's effect on the engine state. -/
def stepEv (st : EngineSt) (ev : CallEv) : EngineSt :=
  match ev with
  | .register id tok => ⟨mapSet st.callbackMap id tok, st.settled⟩
  | .inboundResponse resp => stepCorrelate st resp
  | .timeoutFire id tok =>
      if (mapLookup st.callbackMap id).isSome then
        settleTok ⟨mapErase st.callbackMap id, st.settled⟩ tok (.reject timeoutErrorV)
      else st
  | .senderFail id tok e =>
      settleTok ⟨mapErase st.callbackMap id, st.settled⟩ tok (.reject e)

/-- Well-formedness of an event of the system with respect to one call of
interest (key id, promise token tok): the id is never registered again
(each call registers exactly once, and generateId / the claim's premise
keep ids distinct), no other call's promise is our token, and a timeout or
sender-failure closure carries our token exactly when it carries our id
(both are captured from the same call invocation). -/
def evWF (id : JSValue) (tok : Nat) : CallEv → Bool
  | .register id2 tok2 => !(sameValueZero id2 id) && !(tok2 == tok)
  | .inboundResponse _ => true
  | .timeoutFire id2 tok2 => (sameValueZero id2 id) == (tok2 == tok)
  | .senderFail id2 tok2 _ => (sameValueZero id2 id) == (tok2 == tok)

/-- The settlement invariant for one call: either the call is outstanding —
its id maps to its token, the promise is unsettled, and no other key holds
the token — or it has been settled exactly once and the token is gone from
the table. -/
def callInv (id : JSValue) (tok : Nat) (st : EngineSt) : Prop :=
  (mapLookup st.callbackMap id = some tok ∧ settleCount st tok = 0
     ∧ ∀ p ∈ st.callbackMap, p.2 = tok → sameValueZero p.1 id = true)
  ∨ (mapLookup st.callbackMap id = none ∧ settleCount st tok = 1
     ∧ ∀ p ∈ st.callbackMap, p.2 ≠ tok)

/-- An event that targets the call with the given id: a matching inbound
response, the call's own timeout firing, or its sender failing. -/
def isSettlerFor (id : JSValue) : CallEv → Prop
  | .register _ _ => False
  | .inboundResponse resp =>
      propSafe resp = true ∧ sameValueZero (getF resp "id") id = true
  | .timeoutFire id2 _ => sameValueZero id2 id = true
  | .senderFail id2 _ _ => sameValueZero id2 id = true

/-- A request object as parse produces it for a simple call with an id. -/
def reqA : JSValue := .obj [("method", .str "m"), ("id", .num 7)]

/-- A handler that answers every request with the string "ok". -/
def hdlA : MethodHandler := fun _ _ _ => .ret (.str "ok")

/-- A handler that answers every request with the NoResponse sentinel. -/
def hdlNoResp : MethodHandler := fun _ _ _ => .noResponse

/-- A handler that throws the falsy value 0 for every request. -/
def hdlThrowZero : MethodHandler := fun _ _ _ => .raise (.num 0)

/-- A request with id 1. -/
def reqB : JSValue := .obj [("method", .str "m"), ("id", .num 1)]

/-- A request with id 2. -/
def reqC : JSValue := .obj [("method", .str "m"), ("id", .num 2)]

/-- The conditional conversion in createResponse equals convert outright,
since convert is the identity on JsonRpcError instances. -/
theorem createResponse_convert_eq (error : JSValue) :
    (match error with
     | .errObj true c m d => JSValue.errObj true c m d
     | v => JsonRpcError.convert v) = JsonRpcError.convert error := by
  cases error <;> try rfl
  case errObj b c m d => cases b <;> rfl

/-- Every createResponse output carries the fixed version tag. -/
theorem createResponse_jsonrpc (id result error : JSValue) :
    (createResponse id result error).jsonrpc = "2.0" := by
  unfold createResponse
  cases h : error.truthy <;> simp [h]

/-- The id of a createResponse output is the normalized id, in both
branches. -/
theorem createResponse_id_eq (id result error : JSValue) :
    (createResponse id result error).id = normalizeId id := by
  unfold createResponse
  cases h : error.truthy <;> simp [h]

/-- On a truthy error argument, createResponse keys the error field to the
converted error and leaves the result key absent. -/
theorem createResponse_of_truthy (id result error : JSValue)
    (h : error.truthy = true) :
    (createResponse id result error).error = some (JsonRpcError.convert error)
  ∧ (createResponse id result error).result = none := by
  unfold createResponse
  simp [h, createResponse_convert_eq]

/-- On a falsy error argument, createResponse leaves the error key absent
and sets result to `result || null`. -/
theorem createResponse_of_falsy (id result error : JSValue)
    (h : error.truthy = false) :
    (createResponse id result error).error = none
  ∧ (createResponse id result error).result
      = some (if result.truthy then result else .null) := by
  unfold createResponse
  simp [h]

/-- C2: in the code as written, the reserved server-error band check
`code >= ServerErrorSince && code <= ServerErrorUntil` compares against
-32000 and -32099 in that order, so no code satisfies it: every code in the
intended band [-32099, -32000] (here both endpoints and a midpoint) falls
through to "Unknown Error" instead of the band's documented default
"Server error", and a JsonRpcError built with such a code and no message
carries "Unknown Error". -/
theorem C2_server_error_band_defaults_unknown :
    makeDefaultErrorMessage (-32099) = "Unknown Error"
  ∧ makeDefaultErrorMessage (-32050) = "Unknown Error"
  ∧ makeDefaultErrorMessage (-32000) = "Unknown Error"
  ∧ inServerErrorBandSpec (-32050)
  ∧ mkJsonRpcError (.num (-32050)) .undefined .undefined
      = .errObj true (.num (-32050)) (.str "Unknown Error") .undefined :=
  ⟨rfl, rfl, rfl, ⟨by norm_num, by norm_num⟩, rfl⟩

/-- C3: createResponse tags every response "2.0"; normalizes the id
(undefined and null to the null literal, numbers kept, every other value
to its String form); on a truthy error sets only the error key, to the
converted error; on a falsy error sets only the result key, coercing falsy
results to an explicit null; so exactly one of result / error is a defined
key, and a defined result is never undefined. -/
theorem C3_createResponse_shape (id result error : JSValue) :
    (createResponse id result error).jsonrpc = "2.0"
  ∧ ((id = .undefined ∨ id = .null) → (createResponse id result error).id = .null)
  ∧ (∀ q, id = .num q → (createResponse id result error).id = .num q)
  ∧ ((∀ q, id ≠ .num q) → id ≠ .undefined → id ≠ .null →
        (createResponse id result error).id = .str (jsToString id))
  ∧ (error.truthy = true →
        (createResponse id result error).error = some (JsonRpcError.convert error)
      ∧ (createResponse id result error).result = none)
  ∧ (error.truthy = false →
        (createResponse id result error).error = none
      ∧ (createResponse id result error).result
          = some (if result.truthy then result else .null))
  ∧ ((createResponse id result error).result.isSome
        ↔ (createResponse id result error).error = none)
  ∧ (createResponse id result error).result ≠ some .undefined := by
  refine ⟨createResponse_jsonrpc id result error, ?_, ?_, ?_, ?_, ?_, ?_, ?_⟩
  · rintro (rfl | rfl) <;> rw [createResponse_id_eq] <;> rfl
  · rintro q rfl; rw [createResponse_id_eq]; rfl
  · intro hq hu hn
    rw [createResponse_id_eq]
    cases id <;> first
      | rfl
      | exact absurd rfl hu
      | exact absurd rfl hn
      | exact absurd rfl (hq _)
  · exact fun h => createResponse_of_truthy id result error h
  · exact fun h => createResponse_of_falsy id result error h
  · cases herr : error.truthy
    · obtain ⟨he, hr⟩ := createResponse_of_falsy id result error herr
      rw [he, hr]; simp
    · obtain ⟨he, hr⟩ := createResponse_of_truthy id result error herr
      rw [he, hr]; simp
  · cases herr : error.truthy
    · obtain ⟨-, hr⟩ := createResponse_of_falsy id result error herr
      rw [hr]
      cases hres : result.truthy <;> simp [hres]
      intro hcontra
      rw [hcontra] at hres
      simp [JSValue.truthy] at hres
    · obtain ⟨-, hr⟩ := createResponse_of_truthy id result error herr
      rw [hr]; intro hcontra; exact Option.noConfusion hcontra

/-- C3 witness: a concrete instantiation: an undefined id normalizes to
null and a falsy (zero) result is coerced to an explicit null. -/
theorem C3_createResponse_shape_witness :
    (createResponse .undefined (.num 0) .undefined).id = .null
  ∧ (createResponse .undefined (.num 0) .undefined).result = some .null := by
  have h := C3_createResponse_shape .undefined (.num 0) .undefined
  refine ⟨h.2.1 (Or.inl rfl), ?_⟩
  have h2 := (h.2.2.2.2.2.1 rfl).2
  simpa using h2

/-- C9 counterexample: a generic Error instance carrying the present code
field 0 (read back by property access as 0, not undefined) is converted
with its code replaced by InternalError (-32603): convert copies truthy
fields, not present fields, so the claim's "copies each field that is
present" fails at this input. -/
theorem C9_convert_counterexample :
    JSValue.getFieldE (.errObj false (.num 0) (.str "boom") .undefined) "code"
      = .ok (.num 0)
  ∧ JsonRpcError.convert (.errObj false (.num 0) (.str "boom") .undefined)
      = .errObj true (.num (-32603)) (.str "boom") .undefined
  ∧ JSValue.num 0 ≠ JSValue.num (-32603) :=
  ⟨rfl, rfl, fun h => absurd (JSValue.num.inj h) (by norm_num)⟩

/-- C9 amended: convert returns JsonRpcError instances unchanged (and is
idempotent); for a generic Error it copies each of code / message / data
that is present and truthy, defaulting a missing or falsy code to
InternalError, message to "Internal error", data to undefined; every other
value is stringified into the message with code InternalError; and convert
is total, always returning a JsonRpcError instance (never throwing). -/
theorem C9_convert_amended (c m d v : JSValue) :
    JsonRpcError.convert (.errObj true c m d) = .errObj true c m d
  ∧ JsonRpcError.convert (JsonRpcError.convert v) = JsonRpcError.convert v
  ∧ JsonRpcError.convert (.errObj false c m d)
      = .errObj true (if c.truthy then c else .num (-32603))
                     (if m.truthy then m else .str "Internal error")
                     (if d.truthy then d else .undefined)
  ∧ ((∀ b c2 m2 d2, v ≠ JSValue.errObj b c2 m2 d2) →
        JsonRpcError.convert v
          = .errObj true (.num (-32603)) (.str (jsToString v)) .undefined)
  ∧ (∃ c2 m2 d2, JsonRpcError.convert v = .errObj true c2 m2 d2) := by
  refine ⟨rfl, ?_, rfl, ?_, ?_⟩
  · cases v <;> try rfl
    case errObj b c2 m2 d2 => cases b <;> rfl
  · intro hne
    cases v <;> try rfl
    case errObj b c2 m2 d2 => exact absurd rfl (hne b c2 m2 d2)
  · cases v <;> try exact ⟨_, _, _, rfl⟩
    case errObj b c2 m2 d2 => cases b <;> exact ⟨_, _, _, rfl⟩

/-- C9 witness: convert of the plain number 5, which is not an Error
instance, stringifies it with code InternalError. -/
theorem C9_convert_amended_witness :
    JsonRpcError.convert (.num 5)
      = .errObj true (.num (-32603)) (.str "5") .undefined :=
  (C9_convert_amended .undefined .undefined .undefined (.num 5)).2.2.2.1
    (fun b c2 m2 d2 hcontra => JSValue.noConfusion hcontra)

/-- Reduction of parse once JSON.parse has produced a value. -/
theorem parse_some (s : String) (v : JSValue) (hv : jsonParse s = some v) :
    parse s =
      (if (!instanceofObject v) = true then
        Except.error (mkJsonRpcError (.num (-32600)) .undefined .undefined)
      else
        match v with
        | .arr [] => Except.error (mkJsonRpcError (.num (-32600)) .undefined .undefined)
        | _ => Except.ok v) := by
  unfold parse; rw [hv]

/-- C8: parse throws JsonRpcError(ParseError) exactly on inputs JSON.parse
rejects; on decoded values that are not Objects (null, booleans, numbers,
strings) and on the empty array it throws JsonRpcError(InvalidRequest); on
every other decoded value it returns the value unchanged, validating no
per-element shape; in particular parse of the text for an empty batch
fails with InvalidRequest. -/
theorem C8_parse_validation (s : String) :
    (jsonParse s = none →
        parse s = .error (.errObj true (.num (-32700)) (.str "Parse error") .undefined))
  ∧ (∀ v, jsonParse s = some v → instanceofObject v = false →
        parse s = .error (.errObj true (.num (-32600)) (.str "Invalid Request") .undefined))
  ∧ (jsonParse s = some (.arr []) →
        parse s = .error (.errObj true (.num (-32600)) (.str "Invalid Request") .undefined))
  ∧ (∀ v, jsonParse s = some v → instanceofObject v = true → v ≠ .arr [] →
        parse s = .ok v)
  ∧ parse "[]" = .error (.errObj true (.num (-32600)) (.str "Invalid Request") .undefined) := by
  refine ⟨?_, ?_, ?_, ?_, rfl⟩
  · intro h; unfold parse; rw [h]; rfl
  · intro v hv hio; rw [parse_some s v hv, hio]; rfl
  · intro h; unfold parse; rw [h]; rfl
  · intro v hv hio hne; rw [parse_some s v hv, hio]
    cases v <;> try rfl
    case arr xs =>
      cases xs with
      | nil => exact absurd rfl hne
      | cons a as => rfl

/-- C8 witness: a syntactically invalid input fails with ParseError. -/
theorem C8_parse_validation_witness :
    parse "xyz" = .error (.errObj true (.num (-32700)) (.str "Parse error") .undefined) :=
  (C8_parse_validation "xyz").1 rfl

/-- C7: whenever parse rejects the input, receive builds the error response
with a null id and performs exactly one send, of that response; in
particular receiving the truncated JSON text sends the response with
jsonrpc "2.0", error code -32700 (ParseError), error message "Parse
error", and null id, whatever the handler and state. -/
theorem C7_receive_answers_parse_failure (h : Option MethodHandler) (st : EngineSt)
    (s : String) (e : JSValue) (hp : parse s = .error e) :
    receive h st s = (st, [.one (createResponse .null .null e)])
  ∧ (receive h st s).2.length = 1
  ∧ (∀ h2 st2, receive h2 st2 "\x7b\"jsonrpc\": "
      = (st2, [.one ⟨"2.0", .null, none,
          some (.errObj true (.num (-32700)) (.str "Parse error") .undefined)⟩])) := by
  have h1 : receive h st s = (st, [.one (createResponse .null .null e)]) := by
    unfold receive; rw [hp]
  refine ⟨h1, by rw [h1]; rfl, ?_⟩
  intro h2 st2
  rfl

/-- C7 witness: a concrete instantiation at an unparsable input. -/
theorem C7_receive_answers_parse_failure_witness :
    receive none ⟨[], []⟩ "nope"
      = (⟨[], []⟩, [.one (createResponse .null .null
          (.errObj true (.num (-32700)) (.str "Parse error") .undefined))]) :=
  (C7_receive_answers_parse_failure none ⟨[], []⟩ "nope"
    (.errObj true (.num (-32700)) (.str "Parse error") .undefined) rfl).1

/-- Property access succeeds, with value getF, on every propSafe value. -/
theorem getFieldE_of_propSafe (j : JSValue) (k : String) (h : propSafe j = true) :
    j.getFieldE k = .ok (getF j k) := by
  cases j <;> first
    | rfl
    | exact Bool.noConfusion h

/-- A truthy value supports property access. -/
theorem truthy_propSafe (v : JSValue) (h : v.truthy = true) : propSafe v = true := by
  cases v <;> first
    | rfl
    | exact Bool.noConfusion h

/-- On propSafe values the classification isResponse computes isResponseB. -/
theorem isResponseE_of_propSafe (j : JSValue) (h : propSafe j = true) :
    isResponseE j = .ok (isResponseB j) := by
  unfold isResponseE isResponseB
  rw [getFieldE_of_propSafe j "result" h]
  cases getF j "result" <;> try rfl
  rw [getFieldE_of_propSafe j "error" h]
  cases getF j "error" <;> rfl

/-- On a propSafe request doMethod never throws: it returns pureResp. -/
theorem doMethod_of_propSafe (h : Option MethodHandler) (req : JSValue)
    (hs : propSafe req = true) : doMethod h req = .ok (pureResp h req) := by
  unfold pureResp doMethod
  cases hb : doMethodBody h req with
  | ok r => rfl
  | error e => rw [getFieldE_of_propSafe req "id" hs]

/-- On a propSafe response doCallback never throws: it returns the
stepCorrelate state. -/
theorem doCallback_of_propSafe (st : EngineSt) (resp : JSValue)
    (hs : propSafe resp = true) : doCallback st resp = .ok (stepCorrelate st resp) := by
  unfold stepCorrelate doCallback
  simp only [getFieldE_of_propSafe resp "id" hs,
             getFieldE_of_propSafe resp "error" hs,
             getFieldE_of_propSafe resp "result" hs]
  cases mapLookup st.callbackMap (getF resp "id") with
  | none => rfl
  | some tok =>
      cases herr : (getF resp "error").truthy
      · simp [herr]
      · have hsafe2 := truthy_propSafe (getF resp "error") herr
        simp [herr, getFieldE_of_propSafe (getF resp "error") "code" hsafe2,
              getFieldE_of_propSafe (getF resp "error") "message" hsafe2,
              getFieldE_of_propSafe (getF resp "error") "data" hsafe2]

/-- Unfolding of the batch state over a cons cell. -/
theorem batchState_cons (st : EngineSt) (j : JSValue) (rest : List JSValue) :
    batchState st (j :: rest)
      = batchState (if isResponseB j then stepCorrelate st j else st) rest := rfl

/-- Unfolding of the collected responses over a cons cell. -/
theorem batchResponses_cons (h : Option MethodHandler) (j : JSValue)
    (rest : List JSValue) :
    batchResponses h (j :: rest)
      = (if isResponseB j then [] else (pureResp h j).toList) ++ batchResponses h rest := by
  unfold batchResponses
  rw [List.filterMap_cons]
  cases hb : isResponseB j <;> simp [hb] <;> cases pureResp h j <;> simp

/-- The batch loop of doMetodOrCallback computes the specification views:
state folded over the response-shaped elements in order, and the collected
non-null responses of the request-shaped elements appended to the
accumulator in order, with no element aborting the loop — provided every
element supports property access. -/
theorem goBatch_spec (h : Option MethodHandler) (elems : List JSValue) :
    ∀ (st : EngineSt) (acc : List JsonRpc2Response),
      (∀ j ∈ elems, propSafe j = true) →
      goBatch h elems st acc = (batchState st elems, .ok (acc ++ batchResponses h elems)) := by
  induction elems with
  | nil =>
      intro st acc _
      simp [goBatch, batchState, batchResponses]
  | cons j rest ih =>
      intro st acc hall
      have hj : propSafe j = true := hall j (List.mem_cons_self j rest)
      have hrest : ∀ x ∈ rest, propSafe x = true :=
        fun x hx => hall x (List.mem_cons_of_mem j hx)
      have hE := isResponseE_of_propSafe j hj
      rw [batchState_cons, batchResponses_cons]
      cases hb : isResponseB j
      · rw [hb] at hE
        have hM := doMethod_of_propSafe h j hj
        cases hr : pureResp h j with
        | none =>
            rw [hr] at hM
            simp only [goBatch, hE, hM, hb]
            rw [ih st acc hrest]
            simp
        | some r =>
            rw [hr] at hM
            simp only [goBatch, hE, hM, hb]
            rw [ih st (acc ++ [r]) hrest]
            simp
      · rw [hb] at hE
        have hC := doCallback_of_propSafe st j hj
        simp only [goBatch, hE, hC, hb]
        rw [ih (stepCorrelate st j) acc hrest]
        simp

/-- C4 counterexample: a batch containing the element null (valid JSON, so
parse accepts the batch) makes the classification `json.result !==
undefined` throw a TypeError, so doMetodOrCallback neither returns a
response array nor returns nothing — it throws, contradicting the claim's
universally quantified description of the return value. -/
theorem C4_batch_counterexample :
    (doMetodOrCallback none ⟨[], []⟩ (.arr [.null])).2
      = .error (typeError "Cannot read properties of null")
  ∧ (∀ out : DispatchOut,
      (doMetodOrCallback none ⟨[], []⟩ (.arr [.null])).2 ≠ .ok out) := by
  refine ⟨rfl, ?_⟩
  intro out h
  rw [show (doMetodOrCallback none ⟨[], []⟩ (.arr [.null])).2
        = .error (typeError "Cannot read properties of null") from rfl] at h
  exact Except.noConfusion h

/-- C4 amended: for every batch whose elements all support property access
(no null / undefined element), doMetodOrCallback iterates the elements in
array order, classifying each by isResponse: response-shaped elements are
correlated through doCallback, in order, and contribute nothing to the
output; the others are dispatched through doMethod, whose non-null
responses are collected in encounter order; the result is that array when
non-empty and nothing otherwise. -/
theorem C4_batch_semantics (h : Option MethodHandler) (st : EngineSt)
    (elems : List JSValue) (hall : ∀ j ∈ elems, propSafe j = true) :
    doMetodOrCallback h st (.arr elems)
      = (batchState st elems, .ok (outOfList (batchResponses h elems))) := by
  simp only [doMetodOrCallback]
  rw [goBatch_spec h elems st [] hall]
  simp [outOfList]

/-- C4 witness: a concrete batch of one request. -/
theorem C4_batch_semantics_witness :
    doMetodOrCallback (some hdlA) ⟨[], []⟩ (.arr [reqA])
      = (batchState ⟨[], []⟩ [reqA], .ok (outOfList (batchResponses (some hdlA) [reqA]))) :=
  C4_batch_semantics (some hdlA) ⟨[], []⟩ [reqA]
    (by intro j hj; rw [List.mem_singleton.1 hj]; rfl)

/-- C5 counterexample: the request reqA alone is processed and answered,
but pairing it with a null element (a malformed non-object element) makes
the whole batch throw before reqA is ever dispatched: one malformed null
element does abort the whole batch. -/
theorem C5_batch_counterexample :
    doMetodOrCallback (some hdlA) ⟨[], []⟩ (.arr [reqA])
      = (⟨[], []⟩, .ok (.batch [⟨"2.0", .num 7, some (.str "ok"), none⟩]))
  ∧ (doMetodOrCallback (some hdlA) ⟨[], []⟩ (.arr [.null, reqA])).2
      = .error (typeError "Cannot read properties of null") := ⟨rfl, rfl⟩

/-- C5 amended: an element that supports property access but lacks result,
error and method fields is classified as a request (isResponse is false on
it) and handled by doMethod on its own, and every other element of the
batch — all supporting property access — is still processed normally, the
collected responses decomposing around it in order. -/
theorem C5_malformed_element_isolation (h : Option MethodHandler) (st : EngineSt)
    (pre post : List JSValue) (mal : JSValue)
    (hpre : ∀ j ∈ pre, propSafe j = true) (hpost : ∀ j ∈ post, propSafe j = true)
    (hmal : propSafe mal = true)
    (hr : getF mal "result" = .undefined)
    (he : getF mal "error" = .undefined)
    (hm : getF mal "method" = .undefined) :
    isResponseB mal = false
  ∧ doMetodOrCallback h st (.arr (pre ++ mal :: post))
      = (batchState st (pre ++ mal :: post),
         .ok (outOfList (batchResponses h pre ++ (pureResp h mal).toList
                          ++ batchResponses h post))) := by
  have hb : isResponseB mal = false := by
    unfold isResponseB
    rw [hr, he]
  refine ⟨hb, ?_⟩
  have hall : ∀ j ∈ pre ++ mal :: post, propSafe j = true := by
    intro j hj
    rcases List.mem_append.1 hj with hj1 | hj2
    · exact hpre j hj1
    · rcases List.mem_cons.1 hj2 with rfl | hj3
      · exact hmal
      · exact hpost j hj3
  simp only [doMetodOrCallback]
  rw [goBatch_spec h (pre ++ mal :: post) st [] hall]
  have hsplit : batchResponses h (pre ++ mal :: post)
      = batchResponses h pre ++ (pureResp h mal).toList ++ batchResponses h post := by
    unfold batchResponses
    rw [List.filterMap_append, List.filterMap_cons]
    simp [hb, List.append_assoc]
    cases pureResp h mal <;> simp
  rw [hsplit]
  simp [outOfList]

/-- C5 witness: a batch of exactly one malformed (but non-null) element, an
empty object, is dispatched as a request: with no handler installed it is
answered with a MethodNotFound error response. -/
theorem C5_malformed_element_isolation_witness :
    isResponseB (.obj []) = false
  ∧ doMetodOrCallback none ⟨[], []⟩ (.arr [.obj []])
      = (batchState ⟨[], []⟩ [.obj []],
         .ok (outOfList (batchResponses none [] ++ (pureResp none (.obj [])).toList
                          ++ batchResponses none []))) := by
  have h := C5_malformed_element_isolation none ⟨[], []⟩ [] [] (.obj [])
    (by intro j hj; exact absurd hj (List.not_mem_nil j))
    (by intro j hj; exact absurd hj (List.not_mem_nil j))
    rfl rfl rfl rfl
  exact ⟨h.1, by simpa using h.2⟩

/-- On a non-array value, doMetodOrCallback takes the single-message path:
classify once, then correlate or dispatch. -/
theorem doMetodOrCallback_not_arr (h : Option MethodHandler) (st : EngineSt)
    (j : JSValue) (hnot : ∀ xs, j ≠ .arr xs) :
    doMetodOrCallback h st j =
      (match isResponseE j with
       | .error e => (st, .error e)
       | .ok true =>
           (match doCallback st j with
            | .error e => (st, .error e)
            | .ok st2 => (st2, .ok .nothing))
       | .ok false =>
           (match doMethod h j with
            | .error e => (st, .error e)
            | .ok none => (st, .ok .nothing)
            | .ok (some r) => (st, .ok (.single r)))) := by
  cases j <;> first
    | rfl
    | exact absurd rfl (hnot _)

/-- C6 counterexample: two dispatches refuting the claim as stated.  First,
a handler returning the NoResponse sentinel on a request with the defined
id 1: the handler succeeded and the id is defined and non-null, yet no
response is produced.  Second, a handler throwing the falsy value 0 on a
request with id 2: the catch clause's createResponse sees a falsy error
argument and builds a success-shaped response with result null, not an
error response. -/
theorem C6_doMethod_counterexample :
    JSValue.getFieldE reqB "id" = .ok (.num 1)
  ∧ doMethod (some hdlNoResp) reqB = .ok none
  ∧ doMethod (some hdlThrowZero) reqC
      = .ok (some ⟨"2.0", .num 2, some .null, none⟩) := ⟨rfl, rfl, rfl⟩

/-- C6 amended: with no handler registered, dispatch produces an error
response with code MethodNotFound (-32601) keyed to the request's id; when
the handler throws, a response keyed to the request's id is always
produced, even for an id-less request (an error response whenever the
thrown value is truthy); when the handler succeeds with a value other than
the NoResponse sentinel, a success response is produced exactly when the
id is defined and non-null; a sentinel return produces nothing. -/
theorem C6_doMethod_dispatch (hdl : MethodHandler) (req m p i : JSValue)
    (hm : req.getFieldE "method" = .ok m)
    (hp : req.getFieldE "params" = .ok p)
    (hi : req.getFieldE "id" = .ok i) :
    (doMethod none req = .ok (some (createResponse i .null
        (.errObj true (.num (-32601)) (.str "Method not found") .undefined)))
      ∧ respErrCode (createResponse i .null
          (.errObj true (.num (-32601)) (.str "Method not found") .undefined))
          = some (.num (-32601)))
  ∧ (∀ e, hdl m p i = .raise e →
        doMethod (some hdl) req = .ok (some (createResponse i .null e)))
  ∧ (∀ e, hdl m p i = .raise e → e.truthy = true →
        (createResponse i .null e).error = some (JsonRpcError.convert e))
  ∧ (∀ v, hdl m p i = .ret v → i ≠ .undefined → i ≠ .null →
        doMethod (some hdl) req = .ok (some (createResponse i v .undefined)))
  ∧ (∀ v, hdl m p i = .ret v → (i = .undefined ∨ i = .null) →
        doMethod (some hdl) req = .ok none)
  ∧ (hdl m p i = .noResponse → doMethod (some hdl) req = .ok none) := by
  refine ⟨⟨?_, ?_⟩, ?_, ?_, ?_, ?_, ?_⟩
  · simp only [doMethod, doMethodBody, hi]
    rfl
  · rfl
  · intro e he
    simp only [doMethod, doMethodBody, hm, hp, hi, he]
  · intro e he htr
    exact (createResponse_of_truthy i .null e htr).1
  · intro v hv hiu hin
    cases i <;> first
      | exact absurd rfl hiu
      | exact absurd rfl hin
      | simp only [doMethod, doMethodBody, hm, hp, hi, hv]
  · intro v hv hcase
    simp only [doMethod, doMethodBody, hm, hp, hi, hv]
    rcases hcase with rfl | rfl <;> rfl
  · intro hnr
    simp only [doMethod, doMethodBody, hm, hp, hi, hnr]

/-- C6 witness: dispatch with no handler at a concrete request yields the
MethodNotFound error response. -/
theorem C6_doMethod_dispatch_witness :
    doMethod none reqA = .ok (some (createResponse (.num 7) .null
      (.errObj true (.num (-32601)) (.str "Method not found") .undefined))) :=
  ((C6_doMethod_dispatch hdlA reqA (.str "m") .undefined (.num 7) rfl rfl rfl).1).1

/-- C10: a request whose handler returns the NoResponse sentinel produces
no response from doMethod even though its id is defined and non-null, and
receive of its message performs no send at all: sender is never invoked. -/
theorem C10_sentinel_suppresses_send (hdl : MethodHandler) (st : EngineSt)
    (s : String) (req i : JSValue)
    (hps : parse s = .ok req)
    (hsafe : propSafe req = true)
    (hnotarr : ∀ xs, req ≠ .arr xs)
    (hreq : isResponseB req = false)
    (hi : getF req "id" = i) (hiu : i ≠ .undefined) (hin : i ≠ .null)
    (hh : hdl (getF req "method") (getF req "params") i = .noResponse) :
    doMethod (some hdl) req = .ok none
  ∧ receive (some hdl) st s = (st, []) := by
  have hdm : doMethod (some hdl) req = .ok none := by
    simp only [doMethod, doMethodBody,
        getFieldE_of_propSafe req "method" hsafe,
        getFieldE_of_propSafe req "params" hsafe,
        getFieldE_of_propSafe req "id" hsafe, hi, hh]
  refine ⟨hdm, ?_⟩
  have hE := isResponseE_of_propSafe req hsafe
  rw [hreq] at hE
  have hdisp : doMetodOrCallback (some hdl) st req = (st, .ok .nothing) := by
    rw [doMetodOrCallback_not_arr (some hdl) st req hnotarr, hE, hdm]
  simp only [receive, hps, hdisp]

/-- C10 witness: receiving a concrete request message with id 1 under the
sentinel-returning handler sends nothing. -/
theorem C10_sentinel_suppresses_send_witness :
    receive (some hdlNoResp) ⟨[], []⟩ "\x7b\"method\": \"m\", \"id\": 1\x7d"
      = (⟨[], []⟩, []) :=
  (C10_sentinel_suppresses_send hdlNoResp ⟨[], []⟩
    "\x7b\"method\": \"m\", \"id\": 1\x7d" reqB (.num 1)
    rfl rfl (fun xs h => JSValue.noConfusion h) rfl rfl
    (fun h => JSValue.noConfusion h) (fun h => JSValue.noConfusion h) rfl).2

/-- SameValueZero is symmetric. -/
theorem svz_symm (a b : JSValue) (h : sameValueZero a b = true) :
    sameValueZero b a = true := by
  cases a <;> cases b <;> simp_all [sameValueZero]

/-- SameValueZero is transitive. -/
theorem svz_trans (a b c : JSValue) (h1 : sameValueZero a b = true)
    (h2 : sameValueZero b c = true) : sameValueZero a c = true := by
  cases a <;> cases b <;> cases c <;> simp_all [sameValueZero]

/-- Map lookup respects SameValueZero-equal keys. -/
theorem mapLookup_congr (m : List (JSValue × Nat)) (a b : JSValue)
    (h : sameValueZero a b = true) : mapLookup m a = mapLookup m b := by
  induction m with
  | nil => rfl
  | cons p tl ih =>
      obtain ⟨k, t⟩ := p
      unfold mapLookup
      cases hka : sameValueZero k a with
      | true => rw [svz_trans k a b hka h]; rfl
      | false =>
          cases hkb : sameValueZero k b with
          | true =>
              rw [svz_trans k b a hkb (svz_symm a b h)] at hka
              exact Bool.noConfusion hka
          | false => simpa using ih

/-- A successful lookup comes from an entry whose key matches. -/
theorem mapLookup_mem (m : List (JSValue × Nat)) (q : JSValue) (t : Nat)
    (h : mapLookup m q = some t) :
    ∃ k, (k, t) ∈ m ∧ sameValueZero k q = true := by
  induction m with
  | nil => exact Option.noConfusion h
  | cons p tl ih =>
      obtain ⟨k2, t2⟩ := p
      unfold mapLookup at h
      cases hk : sameValueZero k2 q with
      | true =>
          rw [hk] at h
          simp at h
          exact ⟨k2, by simp [h], hk⟩
      | false =>
          rw [hk] at h
          simp at h
          obtain ⟨k3, hmem, hk3⟩ := ih h
          exact ⟨k3, by simp [hmem], hk3⟩

/-- Erasing an unrelated key leaves a lookup unchanged. -/
theorem mapLookup_erase_of_ne (m : List (JSValue × Nat)) (k q : JSValue)
    (h : sameValueZero k q = false) :
    mapLookup (mapErase m k) q = mapLookup m q := by
  induction m with
  | nil => rfl
  | cons p tl ih =>
      obtain ⟨k2, t2⟩ := p
      simp only [mapErase, mapLookup]
      cases hk2k : sameValueZero k2 k with
      | true =>
          have hk2q : sameValueZero k2 q = false := by
            cases hq : sameValueZero k2 q with
            | false => rfl
            | true =>
                have h3 := svz_trans k k2 q (svz_symm k2 k hk2k) hq
                rw [h3] at h
                exact Bool.noConfusion h
          simp [ih, hk2q]
      | false =>
          simp only [Bool.false_eq_true, if_false]
          simp only [mapLookup]
          cases hq : sameValueZero k2 q with
          | true => simp
          | false => simp [ih]

/-- Erasing a key kills the lookup of every SameValueZero-equal key. -/
theorem mapLookup_erase_self (m : List (JSValue × Nat)) (k q : JSValue)
    (h : sameValueZero k q = true) :
    mapLookup (mapErase m k) q = none := by
  induction m with
  | nil => rfl
  | cons p tl ih =>
      obtain ⟨k2, t2⟩ := p
      simp only [mapErase]
      cases hk2k : sameValueZero k2 k with
      | true => simp [ih]
      | false =>
          have hk2q : sameValueZero k2 q = false := by
            cases hq : sameValueZero k2 q with
            | false => rfl
            | true =>
                have h3 := svz_trans k2 q k hq (svz_symm k q h)
                rw [h3] at hk2k
                exact Bool.noConfusion hk2k
          simp only [Bool.false_eq_true, if_false]
          simp only [mapLookup]
          simp [hk2q, ih]

/-- Erasing never makes an absent key present. -/
theorem mapLookup_erase_none (m : List (JSValue × Nat)) (k q : JSValue)
    (h : mapLookup m q = none) : mapLookup (mapErase m k) q = none := by
  cases hk : sameValueZero k q with
  | true => exact mapLookup_erase_self m k q hk
  | false => rw [mapLookup_erase_of_ne m k q hk]; exact h

/-- Membership in the erased map implies membership in the original. -/
theorem mem_mapErase (m : List (JSValue × Nat)) (k : JSValue)
    (p : JSValue × Nat) (h : p ∈ mapErase m k) : p ∈ m := by
  induction m with
  | nil => simp [mapErase] at h
  | cons p2 tl ih =>
      obtain ⟨k2, t2⟩ := p2
      simp only [mapErase] at h
      cases hk2k : sameValueZero k2 k with
      | true =>
          rw [hk2k] at h
          simp only [if_pos rfl] at h
          exact List.mem_cons_of_mem _ (ih h)
      | false =>
          rw [hk2k] at h
          simp only [Bool.false_eq_true, if_false] at h
          rcases List.mem_cons.mp h with rfl | h2
          · exact List.mem_cons_self _ _
          · exact List.mem_cons_of_mem _ (ih h2)

/-- An entry surviving the erase does not match the erased key. -/
theorem not_svz_of_mem_mapErase (m : List (JSValue × Nat)) (k : JSValue)
    (p : JSValue × Nat) (h : p ∈ mapErase m k) : sameValueZero p.1 k = false := by
  induction m with
  | nil => simp [mapErase] at h
  | cons p2 tl ih =>
      obtain ⟨k2, t2⟩ := p2
      simp only [mapErase] at h
      cases hk2k : sameValueZero k2 k with
      | true =>
          rw [hk2k] at h
          simp only [if_pos rfl] at h
          exact ih h
      | false =>
          rw [hk2k] at h
          simp only [Bool.false_eq_true, if_false] at h
          rcases List.mem_cons.mp h with rfl | h2
          · exact hk2k
          · exact ih h2

/-- Settling never touches the correlation table. -/
theorem settleTok_callbackMap (st : EngineSt) (tok : Nat) (out : SettleOut) :
    (settleTok st tok out).callbackMap = st.callbackMap := by
  unfold settleTok
  split <;> rfl

/-- A token is found in the settlement log exactly when it occurs among the
settled tokens. -/
theorem lookup_fst_mem (l : List (Nat × SettleOut)) (tok : Nat) :
    (l.lookup tok).isSome = true ↔ tok ∈ l.map Prod.fst := by
  induction l with
  | nil => simp
  | cons p tl ih =>
      obtain ⟨t, o⟩ := p
      cases ht : (tok == t) with
      | true =>
          have : tok = t := beq_iff_eq.mp ht
          subst this
          simp [List.lookup]
      | false =>
          have hne : tok ≠ t := ne_of_beq_false ht
          simp [List.lookup, ht, ih, hne]

/-- Settling an unsettled token records it exactly once. -/
theorem settleCount_settleTok_self_zero (st : EngineSt) (tok : Nat) (out : SettleOut)
    (h : settleCount st tok = 0) : settleCount (settleTok st tok out) tok = 1 := by
  have hmem : tok ∉ st.settled.map Prod.fst := by
    rw [← List.count_eq_zero]
    exact h
  have hlk : (st.settled.lookup tok).isSome = false := by
    cases hv : (st.settled.lookup tok).isSome
    · rfl
    · exact absurd ((lookup_fst_mem _ _).mp hv) hmem
  unfold settleTok
  rw [hlk]
  simp [settleCount, List.count_cons] at h ⊢
  exact h

/-- Settling an already settled token is a no-op on the count. -/
theorem settleCount_settleTok_self_one (st : EngineSt) (tok : Nat) (out : SettleOut)
    (h : settleCount st tok = 1) : settleCount (settleTok st tok out) tok = 1 := by
  have hmem : tok ∈ st.settled.map Prod.fst := by
    have : 0 < (st.settled.map Prod.fst).count tok := by
      unfold settleCount at h
      omega
    exact List.count_pos_iff.mp this
  have hlk := (lookup_fst_mem _ _).mpr hmem
  unfold settleTok
  rw [hlk]
  simpa using h

/-- Settling one token does not change another token's count. -/
theorem settleCount_settleTok_other (st : EngineSt) (tok2 tok : Nat) (out : SettleOut)
    (h : tok2 ≠ tok) : settleCount (settleTok st tok2 out) tok = settleCount st tok := by
  unfold settleTok
  cases hlk : (st.settled.lookup tok2).isSome
  · simp [settleCount, List.count_cons, Ne.symm h]
  · rfl

/-- Settlement counts never decrease. -/
theorem settleCount_settleTok_ge (st : EngineSt) (tok2 : Nat) (out : SettleOut)
    (tok : Nat) : settleCount st tok ≤ settleCount (settleTok st tok2 out) tok := by
  unfold settleTok
  cases hlk : (st.settled.lookup tok2).isSome
  · simp only [Bool.false_eq_true, if_false, settleCount, List.map, List.count_cons]
    omega
  · exact Nat.le_refl _

/-- A response whose id read throws leaves the state unchanged. -/
theorem stepCorrelate_id_error (st : EngineSt) (resp e : JSValue)
    (h : resp.getFieldE "id" = .error e) : stepCorrelate st resp = st := by
  unfold stepCorrelate doCallback
  simp [h]

/-- A response whose id is not in the table is a silent no-op. -/
theorem stepCorrelate_not_found (st : EngineSt) (resp rid : JSValue)
    (hrid : resp.getFieldE "id" = .ok rid)
    (h : mapLookup st.callbackMap rid = none) : stepCorrelate st resp = st := by
  unfold stepCorrelate doCallback
  simp [hrid, h]

/-- A successful property read means the base value was propSafe. -/
theorem getFieldE_ok_propSafe (resp v : JSValue) (k : String)
    (h : resp.getFieldE k = .ok v) : propSafe resp = true := by
  cases resp <;> first
    | rfl
    | cases h

/-- A response whose id is found in the table removes that entry and
settles that entry's token. -/
theorem stepCorrelate_found (st : EngineSt) (resp rid : JSValue) (tok2 : Nat)
    (hrid : resp.getFieldE "id" = .ok rid)
    (hfound : mapLookup st.callbackMap rid = some tok2) :
    ∃ out, stepCorrelate st resp
      = settleTok ⟨mapErase st.callbackMap rid, st.settled⟩ tok2 out := by
  have hs := getFieldE_ok_propSafe resp rid "id" hrid
  unfold stepCorrelate doCallback
  simp only [hrid, hfound, getFieldE_of_propSafe resp "error" hs,
    getFieldE_of_propSafe resp "result" hs]
  cases htr : (getF resp "error").truthy
  · simp only [Bool.false_eq_true, if_false]
    exact ⟨_, rfl⟩
  · have hsafe2 := truthy_propSafe (getF resp "error") htr
    simp only [if_pos rfl,
      getFieldE_of_propSafe (getF resp "error") "code" hsafe2,
      getFieldE_of_propSafe (getF resp "error") "message" hsafe2,
      getFieldE_of_propSafe (getF resp "error") "data" hsafe2]
    exact ⟨_, rfl⟩

/-- One well-formed event preserves the settlement invariant of a call. -/
theorem callInv_step (id : JSValue) (tok : Nat) (st : EngineSt) (ev : CallEv)
    (hwf : evWF id tok ev = true) (hinv : callInv id tok st) :
    callInv id tok (stepEv st ev) := by
  cases ev with
  | register id2 tok2 =>
      have h0 : sameValueZero id2 id = false ∧ (tok2 == tok) = false := by
        have h1 := hwf
        simp only [evWF, Bool.and_eq_true, Bool.not_eq_true'] at h1
        exact h1
      have hid2 := h0.1
      have htok2 : tok2 ≠ tok := ne_of_beq_false h0.2
      simp only [stepEv, mapSet]
      rcases hinv with ⟨hlk, hcnt, honly⟩ | ⟨hlk, hcnt, hnone⟩
      · left
        refine ⟨?_, hcnt, ?_⟩
        · show mapLookup ((id2, tok2) :: mapErase st.callbackMap id2) id = some tok
          unfold mapLookup
          rw [hid2]
          simp only [Bool.false_eq_true, if_false]
          rw [mapLookup_erase_of_ne _ _ _ hid2]
          exact hlk
        · intro p hp hpt
          rcases List.mem_cons.mp hp with rfl | hp2
          · exact absurd hpt htok2
          · exact honly p (mem_mapErase _ _ _ hp2) hpt
      · right
        refine ⟨?_, hcnt, ?_⟩
        · show mapLookup ((id2, tok2) :: mapErase st.callbackMap id2) id = none
          unfold mapLookup
          rw [hid2]
          simp only [Bool.false_eq_true, if_false]
          rw [mapLookup_erase_of_ne _ _ _ hid2]
          exact hlk
        · intro p hp
          rcases List.mem_cons.mp hp with rfl | hp2
          · exact htok2
          · exact hnone p (mem_mapErase _ _ _ hp2)
  | inboundResponse resp =>
      simp only [stepEv]
      cases hrid : resp.getFieldE "id" with
      | error e =>
          rw [stepCorrelate_id_error st resp e hrid]
          exact hinv
      | ok rid =>
          cases hlk2 : mapLookup st.callbackMap rid with
          | none =>
              rw [stepCorrelate_not_found st resp rid hrid hlk2]
              exact hinv
          | some tok2 =>
              obtain ⟨out, hstep⟩ := stepCorrelate_found st resp rid tok2 hrid hlk2
              rw [hstep]
              cases hsvz : sameValueZero rid id with
              | true =>
                  have hcongr := mapLookup_congr st.callbackMap rid id hsvz
                  rcases hinv with ⟨hlk, hcnt, honly⟩ | ⟨hlk, hcnt, hnone⟩
                  · have htok2 : tok2 = tok := by
                      rw [hcongr, hlk] at hlk2
                      exact (Option.some.inj hlk2).symm
                    subst htok2
                    right
                    refine ⟨?_, ?_, ?_⟩
                    · rw [settleTok_callbackMap]
                      exact mapLookup_erase_self _ _ _ hsvz
                    · exact settleCount_settleTok_self_zero _ _ _ hcnt
                    · intro p hp
                      rw [settleTok_callbackMap] at hp
                      have hpm := mem_mapErase _ _ _ hp
                      have hsurv := not_svz_of_mem_mapErase _ _ _ hp
                      intro hpt
                      have h1 := honly p hpm hpt
                      have h2 : sameValueZero p.1 rid = true :=
                        svz_trans p.1 id rid h1 (svz_symm rid id hsvz)
                      rw [h2] at hsurv
                      exact Bool.noConfusion hsurv
                  · rw [hcongr, hlk] at hlk2
                    exact Option.noConfusion hlk2
              | false =>
                  rcases hinv with ⟨hlk, hcnt, honly⟩ | ⟨hlk, hcnt, hnone⟩
                  · have htok2 : tok2 ≠ tok := by
                      intro hcontra
                      subst hcontra
                      obtain ⟨k, hkmem, hk⟩ := mapLookup_mem _ _ _ hlk2
                      have hkid := honly (k, tok2) hkmem rfl
                      have h2 : sameValueZero rid id = true :=
                        svz_trans rid k id (svz_symm k rid hk) hkid
                      rw [h2] at hsvz
                      exact Bool.noConfusion hsvz
                    left
                    refine ⟨?_, ?_, ?_⟩
                    · rw [settleTok_callbackMap, mapLookup_erase_of_ne _ _ _ hsvz]
                      exact hlk
                    · rw [settleCount_settleTok_other _ _ _ _ htok2]
                      exact hcnt
                    · intro p hp hpt
                      rw [settleTok_callbackMap] at hp
                      exact honly p (mem_mapErase _ _ _ hp) hpt
                  · have htok2 : tok2 ≠ tok := by
                      obtain ⟨k, hkmem, hk⟩ := mapLookup_mem _ _ _ hlk2
                      exact hnone (k, tok2) hkmem
                    right
                    refine ⟨?_, ?_, ?_⟩
                    · rw [settleTok_callbackMap]
                      exact mapLookup_erase_none _ _ _ hlk
                    · rw [settleCount_settleTok_other _ _ _ _ htok2]
                      exact hcnt
                    · intro p hp
                      rw [settleTok_callbackMap] at hp
                      exact hnone p (mem_mapErase _ _ _ hp)
  | timeoutFire id2 tok2 =>
      have hrel : sameValueZero id2 id = (tok2 == tok) := by
        have h1 := hwf
        simp only [evWF] at h1
        exact beq_iff_eq.mp h1
      cases hguard : (mapLookup st.callbackMap id2).isSome with
      | false =>
          have hst : stepEv st (.timeoutFire id2 tok2) = st := by
            simp [stepEv, hguard]
          rw [hst]
          exact hinv
      | true =>
          have hstep : stepEv st (.timeoutFire id2 tok2)
              = settleTok ⟨mapErase st.callbackMap id2, st.settled⟩ tok2
                  (.reject timeoutErrorV) := by
            simp [stepEv, hguard]
          rw [hstep]
          cases hsvz : sameValueZero id2 id with
          | true =>
              have htok2 : tok2 = tok := by
                rw [hsvz] at hrel
                exact beq_iff_eq.mp hrel.symm
              subst htok2
              rcases hinv with ⟨hlk, hcnt, honly⟩ | ⟨hlk, hcnt, hnone⟩
              · right
                refine ⟨?_, ?_, ?_⟩
                · rw [settleTok_callbackMap]
                  exact mapLookup_erase_self _ _ _ hsvz
                · exact settleCount_settleTok_self_zero _ _ _ hcnt
                · intro p hp
                  rw [settleTok_callbackMap] at hp
                  have hpm := mem_mapErase _ _ _ hp
                  have hsurv := not_svz_of_mem_mapErase _ _ _ hp
                  intro hpt
                  have h1 := honly p hpm hpt
                  have h2 : sameValueZero p.1 id2 = true :=
                    svz_trans p.1 id id2 h1 (svz_symm id2 id hsvz)
                  rw [h2] at hsurv
                  exact Bool.noConfusion hsurv
              · have hn : mapLookup st.callbackMap id2 = none := by
                  rw [mapLookup_congr st.callbackMap id2 id hsvz]
                  exact hlk
                rw [hn] at hguard
                simp at hguard
          | false =>
              have htok2 : tok2 ≠ tok := by
                rw [hsvz] at hrel
                intro hcontra
                subst hcontra
                simp at hrel
              rcases hinv with ⟨hlk, hcnt, honly⟩ | ⟨hlk, hcnt, hnone⟩
              · left
                refine ⟨?_, ?_, ?_⟩
                · rw [settleTok_callbackMap, mapLookup_erase_of_ne _ _ _ hsvz]
                  exact hlk
                · rw [settleCount_settleTok_other _ _ _ _ htok2]
                  exact hcnt
                · intro p hp hpt
                  rw [settleTok_callbackMap] at hp
                  exact honly p (mem_mapErase _ _ _ hp) hpt
              · right
                refine ⟨?_, ?_, ?_⟩
                · rw [settleTok_callbackMap]
                  exact mapLookup_erase_none _ _ _ hlk
                · rw [settleCount_settleTok_other _ _ _ _ htok2]
                  exact hcnt
                · intro p hp
                  rw [settleTok_callbackMap] at hp
                  exact hnone p (mem_mapErase _ _ _ hp)
  | senderFail id2 tok2 e =>
      have hrel : sameValueZero id2 id = (tok2 == tok) := by
        have h1 := hwf
        simp only [evWF] at h1
        exact beq_iff_eq.mp h1
      simp only [stepEv]
      cases hsvz : sameValueZero id2 id with
      | true =>
          have htok2 : tok2 = tok := by
            rw [hsvz] at hrel
            exact beq_iff_eq.mp hrel.symm
          subst htok2
          rcases hinv with ⟨hlk, hcnt, honly⟩ | ⟨hlk, hcnt, hnone⟩
          · right
            refine ⟨?_, ?_, ?_⟩
            · rw [settleTok_callbackMap]
              exact mapLookup_erase_self _ _ _ hsvz
            · exact settleCount_settleTok_self_zero _ _ _ hcnt
            · intro p hp
              rw [settleTok_callbackMap] at hp
              have hpm := mem_mapErase _ _ _ hp
              have hsurv := not_svz_of_mem_mapErase _ _ _ hp
              intro hpt
              have h1 := honly p hpm hpt
              have h2 : sameValueZero p.1 id2 = true :=
                svz_trans p.1 id id2 h1 (svz_symm id2 id hsvz)
              rw [h2] at hsurv
              exact Bool.noConfusion hsurv
          · right
            refine ⟨?_, ?_, ?_⟩
            · rw [settleTok_callbackMap]
              exact mapLookup_erase_none _ _ _ hlk
            · exact settleCount_settleTok_self_one _ _ _ hcnt
            · intro p hp
              rw [settleTok_callbackMap] at hp
              exact hnone p (mem_mapErase _ _ _ hp)
      | false =>
          have htok2 : tok2 ≠ tok := by
            rw [hsvz] at hrel
            intro hcontra
            subst hcontra
            simp at hrel
          rcases hinv with ⟨hlk, hcnt, honly⟩ | ⟨hlk, hcnt, hnone⟩
          · left
            refine ⟨?_, ?_, ?_⟩
            · rw [settleTok_callbackMap, mapLookup_erase_of_ne _ _ _ hsvz]
              exact hlk
            · rw [settleCount_settleTok_other _ _ _ _ htok2]
              exact hcnt
            · intro p hp hpt
              rw [settleTok_callbackMap] at hp
              exact honly p (mem_mapErase _ _ _ hp) hpt
          · right
            refine ⟨?_, ?_, ?_⟩
            · rw [settleTok_callbackMap]
              exact mapLookup_erase_none _ _ _ hlk
            · rw [settleCount_settleTok_other _ _ _ _ htok2]
              exact hcnt
            · intro p hp
              rw [settleTok_callbackMap] at hp
              exact hnone p (mem_mapErase _ _ _ hp)

/-- No event ever decreases a token's settlement count. -/
theorem settleCount_step_mono (st : EngineSt) (ev : CallEv) (tok : Nat) :
    settleCount st tok ≤ settleCount (stepEv st ev) tok := by
  cases ev with
  | register id2 tok2 => exact Nat.le_refl _
  | inboundResponse resp =>
      simp only [stepEv]
      cases hrid : resp.getFieldE "id" with
      | error e =>
          rw [stepCorrelate_id_error st resp e hrid]
      | ok rid =>
          cases hlk2 : mapLookup st.callbackMap rid with
          | none => rw [stepCorrelate_not_found st resp rid hrid hlk2]
          | some tok2 =>
              obtain ⟨out, hstep⟩ := stepCorrelate_found st resp rid tok2 hrid hlk2
              rw [hstep]
              exact settleCount_settleTok_ge
                ⟨mapErase st.callbackMap rid, st.settled⟩ tok2 out tok
  | timeoutFire id2 tok2 =>
      cases hguard : (mapLookup st.callbackMap id2).isSome with
      | false => simp [stepEv, hguard]
      | true =>
          have hstep : stepEv st (.timeoutFire id2 tok2)
              = settleTok ⟨mapErase st.callbackMap id2, st.settled⟩ tok2
                  (.reject timeoutErrorV) := by
            simp [stepEv, hguard]
          rw [hstep]
          exact settleCount_settleTok_ge
            ⟨mapErase st.callbackMap id2, st.settled⟩ tok2 (.reject timeoutErrorV) tok
  | senderFail id2 tok2 e =>
      simp only [stepEv]
      exact settleCount_settleTok_ge
        ⟨mapErase st.callbackMap id2, st.settled⟩ tok2 (.reject e) tok

/-- Any well-formed event targeting the call, run in an invariant state,
leaves its token settled exactly once. -/
theorem settler_settles (id : JSValue) (tok : Nat) (st : EngineSt) (ev : CallEv)
    (hwf : evWF id tok ev = true) (hinv : callInv id tok st)
    (hs : isSettlerFor id ev) :
    settleCount (stepEv st ev) tok = 1 := by
  cases ev with
  | register id2 tok2 => exact hs.elim
  | inboundResponse resp =>
      obtain ⟨hsafe, hsvz⟩ := hs
      have hrid := getFieldE_of_propSafe resp "id" hsafe
      have hcongr := mapLookup_congr st.callbackMap (getF resp "id") id hsvz
      simp only [stepEv]
      rcases hinv with ⟨hlk, hcnt, honly⟩ | ⟨hlk, hcnt, hnone⟩
      · have hfound : mapLookup st.callbackMap (getF resp "id") = some tok := by
          rw [hcongr]; exact hlk
        obtain ⟨out, hstep⟩ := stepCorrelate_found st resp _ tok hrid hfound
        rw [hstep]
        exact settleCount_settleTok_self_zero _ _ _ hcnt
      · have hnf : mapLookup st.callbackMap (getF resp "id") = none := by
          rw [hcongr]; exact hlk
        rw [stepCorrelate_not_found st resp _ hrid hnf]
        exact hcnt
  | timeoutFire id2 tok2 =>
      have hrel : sameValueZero id2 id = (tok2 == tok) := by
        have h1 := hwf
        simp only [evWF] at h1
        exact beq_iff_eq.mp h1
      have hsvz : sameValueZero id2 id = true := hs
      have htok2 : tok2 = tok := by
        rw [hsvz] at hrel
        exact beq_iff_eq.mp hrel.symm
      subst htok2
      rcases hinv with ⟨hlk, hcnt, honly⟩ | ⟨hlk, hcnt, hnone⟩
      · have hguard : (mapLookup st.callbackMap id2).isSome = true := by
          rw [mapLookup_congr st.callbackMap id2 id hsvz, hlk]; rfl
        have hstep : stepEv st (.timeoutFire id2 tok2)
            = settleTok ⟨mapErase st.callbackMap id2, st.settled⟩ tok2
                (.reject timeoutErrorV) := by
          simp [stepEv, hguard]
        rw [hstep]
        exact settleCount_settleTok_self_zero _ _ _ hcnt
      · have hguard : (mapLookup st.callbackMap id2).isSome = false := by
          rw [mapLookup_congr st.callbackMap id2 id hsvz, hlk]; rfl
        have hstep : stepEv st (.timeoutFire id2 tok2) = st := by
          simp [stepEv, hguard]
        rw [hstep]
        exact hcnt
  | senderFail id2 tok2 e =>
      have hrel : sameValueZero id2 id = (tok2 == tok) := by
        have h1 := hwf
        simp only [evWF] at h1
        exact beq_iff_eq.mp h1
      have hsvz : sameValueZero id2 id = true := hs
      have htok2 : tok2 = tok := by
        rw [hsvz] at hrel
        exact beq_iff_eq.mp hrel.symm
      subst htok2
      simp only [stepEv]
      rcases hinv with ⟨hlk, hcnt, honly⟩ | ⟨hlk, hcnt, hnone⟩
      · exact settleCount_settleTok_self_zero _ _ _ hcnt
      · exact settleCount_settleTok_self_one _ _ _ hcnt

/-- The invariant is preserved along any well-formed trace. -/
theorem callInv_foldl (id : JSValue) (tok : Nat) (trace : List CallEv) :
    ∀ st : EngineSt, trace.all (evWF id tok) = true → callInv id tok st →
      callInv id tok (trace.foldl stepEv st) := by
  induction trace with
  | nil => intro st _ h; exact h
  | cons ev rest ih =>
      intro st hall hinv
      have h1 : evWF id tok ev = true ∧ rest.all (evWF id tok) = true := by
        simpa [List.all_cons] using hall
      exact ih (stepEv st ev) h1.2 (callInv_step id tok st ev h1.1 hinv)

/-- Settlement counts never decrease along a trace. -/
theorem settleCount_foldl_mono (tok : Nat) (trace : List CallEv) :
    ∀ st : EngineSt, settleCount st tok ≤ settleCount (trace.foldl stepEv st) tok := by
  induction trace with
  | nil => intro st; exact Nat.le_refl _
  | cons ev rest ih =>
      intro st
      exact Nat.le_trans (settleCount_step_mono st ev tok) (ih (stepEv st ev))

/-- C1: for a call registered in the correlation table (invariant state:
its id maps to its promise token, unsettled, the token held nowhere else),
any well-formed trace of system events — inbound responses, the call's own
timeout, sender failures, other calls' registrations — preserves the
invariant; the call settles at most once; once settled its id is absent
from the table; any event targeting it (a matching response, its timeout,
its sender failure) leaves it settled exactly once; and doCallback on an
id absent from the table returns the state unchanged — a silent no-op. -/
theorem C1_at_most_once_settlement (id : JSValue) (tok : Nat)
    (trace : List CallEv) (st0 : EngineSt)
    (hwf : trace.all (evWF id tok) = true)
    (h0 : callInv id tok st0) :
    callInv id tok (trace.foldl stepEv st0)
  ∧ settleCount (trace.foldl stepEv st0) tok ≤ 1
  ∧ (settleCount (trace.foldl stepEv st0) tok = 1 →
       mapLookup (trace.foldl stepEv st0).callbackMap id = none)
  ∧ ((∃ ev ∈ trace, isSettlerFor id ev) →
       settleCount (trace.foldl stepEv st0) tok = 1)
  ∧ (∀ (st : EngineSt) (resp rid : JSValue), resp.getFieldE "id" = .ok rid →
       mapLookup st.callbackMap rid = none → doCallback st resp = .ok st) := by
  have hfin := callInv_foldl id tok trace st0 hwf h0
  refine ⟨hfin, ?_, ?_, ?_, ?_⟩
  · rcases hfin with ⟨-, hcnt, -⟩ | ⟨-, hcnt, -⟩ <;> omega
  · intro hone
    rcases hfin with ⟨-, hcnt, -⟩ | ⟨hlk, -, -⟩
    · omega
    · exact hlk
  · rintro ⟨ev, hev, hsett⟩
    obtain ⟨pre, post, rfl⟩ := List.append_of_mem hev
    have hwfs : pre.all (evWF id tok) = true
        ∧ evWF id tok ev = true ∧ post.all (evWF id tok) = true := by
      simpa [List.all_append, List.all_cons, Bool.and_eq_true] using hwf
    have hinvpre := callInv_foldl id tok pre st0 hwfs.1 h0
    have hone : settleCount (stepEv (pre.foldl stepEv st0) ev) tok = 1 :=
      settler_settles id tok _ ev hwfs.2.1 hinvpre hsett
    have hfold : (pre ++ ev :: post).foldl stepEv st0
        = post.foldl stepEv (stepEv (pre.foldl stepEv st0) ev) := by
      rw [List.foldl_append]
      rfl
    rw [hfold]
    have hge := settleCount_foldl_mono tok post (stepEv (pre.foldl stepEv st0) ev)
    rw [hone] at hge
    have hfin2 := hfin
    rw [hfold] at hfin2
    rcases hfin2 with ⟨-, hcnt, -⟩ | ⟨-, hcnt, -⟩ <;> omega
  · intro st resp rid hrid hnone
    unfold doCallback
    simp [hrid, hnone]

/-- C1 witness: one outstanding call with id 1 and token 0; a matching
response settles it, and the later timeout firing for the same call finds
the id gone and is a no-op: the final settlement count is exactly one. -/
theorem C1_at_most_once_settlement_witness :
    settleCount
      ([CallEv.inboundResponse (.obj [("id", .num 1), ("result", .num 19)]),
        CallEv.timeoutFire (.num 1) 0].foldl stepEv ⟨[(.num 1, 0)], []⟩) 0 = 1 :=
  (C1_at_most_once_settlement (.num 1) 0
    [CallEv.inboundResponse (.obj [("id", .num 1), ("result", .num 19)]),
     CallEv.timeoutFire (.num 1) 0] ⟨[(.num 1, 0)], []⟩
    (by rfl)
    (Or.inl ⟨rfl, rfl, by
      intro p hp hpt
      simp only [List.mem_singleton] at hp
      subst hp
      rfl⟩)).2.2.2.1
    ⟨CallEv.inboundResponse (.obj [("id", .num 1), ("result", .num 19)]),
     List.mem_cons_self _ _, rfl, rfl⟩
